import Mathlib

/-!
Verification of the Acquisition data model and its validation/normalization
engine (`aind_data_schema/core/acquisition.py`).

The Python source is a pydantic-v2 model.  We shallowly embed:

* the enumerations (`AxisName`, `Direction`, the relevant `SizeUnit` member,
  the ten `ProcessName` members admitted by `ProcessingSteps`),
* the entity types (`Axis`, `Immersion`, `ProcessingSteps`, `Acquisition`),
* the `mode="before"` field validator `from_direction_code` on `axes`,
* pydantic construction: each field is validated against its declared
  type/requiredness/literal constraint, all per-field violations are
  collected into a single `ValidationError`; an exception other than a
  pydantic-recognised validation failure raised inside a validator
  (here: `KeyError` from `direction_lookup[c]`, `IndexError` from
  `name_lookup[i]`) propagates raw and aborts construction.

External collaborator types (`AcquisitionTile`, `Calibration`, `Maintenance`,
`ImmersionMedium`, `datetime`, `Decimal`) are opaque to this core: they are
modelled as simple wrapper structures that construction passes through
unchanged, exactly as the schema layer treats already-validated instances.
-/

namespace Aind

/-- Image axis name (`AxisName` enum in the source). -/
inductive AxisName where
  | X
  | Y
  | Z
deriving DecidableEq, Repr

/-- Anatomical direction name (`Direction` enum in the source). -/
inductive Direction where
  | LR  -- "Left_to_right"
  | RL  -- "Right_to_left"
  | AP  -- "Anterior_to_posterior"
  | PA  -- "Posterior_to_anterior"
  | IS  -- "Inferior_to_superior"
  | SI  -- "Superior_to_inferior"
  | OTHER
deriving DecidableEq, Repr

/-- Length-unit enumeration (external `SizeUnit`); `UM` (micrometers) is the
default used by `Axis.unit`.  Other members exist externally but are opaque
to this core, kept here only so the type is not a singleton. -/
inductive SizeUnit where
  | UM
  | MM
  | NM
deriving DecidableEq, Repr

/-- Description of an image axis (`Axis` model).  `dimension` is a Python
`int`, so it is embedded as `Int`. -/
structure Axis where
  name : AxisName
  dimension : Int
  direction : Direction
  unit : SizeUnit := SizeUnit.UM
deriving DecidableEq, Repr

/-- External immersion-medium enumeration, opaque validated value. -/
structure ImmersionMedium where
  value : String
deriving DecidableEq, Repr

/-- Exact decimal number (`Decimal`), opaque to the claims. -/
structure Decimal where
  unscaled : Int
  scale : Nat
deriving DecidableEq, Repr

/-- Description of immersion medium (`Immersion` model). -/
structure Immersion where
  medium : ImmersionMedium
  refractive_index : Decimal
deriving DecidableEq, Repr

/-- The ten `ProcessName` members admitted by
`ProcessingSteps.process_name` (the `Literal[...]` list in the source). -/
inductive PName where
  | IMAGE_IMPORTING
  | IMAGE_BACKGROUND_SUBTRACTION
  | IMAGE_CELL_SEGMENTATION
  | IMAGE_DESTRIPING
  | IMAGE_FLATFIELD_CORRECTION
  | IMAGE_THRESHOLDING
  | IMAGE_TILE_ALIGNMENT
  | IMAGE_TILE_FUSING
  | IMAGE_TILE_PROJECTION
  | FILE_CONVERSION
deriving DecidableEq, Repr

/-- Modelled from the spec: the string values of the ten processing-step
identifiers (`import`, `background-subtraction`, `cell-segmentation`,
`destriping`, `flatfield-correction`, `thresholding`, `tile-alignment`,
`tile-fusing`, `tile-projection`, `file-conversion`); the `ProcessName`
enum itself lives in `aind_data_schema.models.process_names`, which is not
part of the source of this repository. -/
def PName.value : PName → String
  | .IMAGE_IMPORTING => "import"
  | .IMAGE_BACKGROUND_SUBTRACTION => "background-subtraction"
  | .IMAGE_CELL_SEGMENTATION => "cell-segmentation"
  | .IMAGE_DESTRIPING => "destriping"
  | .IMAGE_FLATFIELD_CORRECTION => "flatfield-correction"
  | .IMAGE_THRESHOLDING => "thresholding"
  | .IMAGE_TILE_ALIGNMENT => "tile-alignment"
  | .IMAGE_TILE_FUSING => "tile-fusing"
  | .IMAGE_TILE_PROJECTION => "tile-projection"
  | .FILE_CONVERSION => "file-conversion"

/-- Membership test of a raw string in the fixed closed set of ten
processing-step identifiers: the per-entry `Literal[...]` check. -/
def processName? (s : String) : Option PName :=
  if s = PName.value .IMAGE_IMPORTING then some .IMAGE_IMPORTING
  else if s = PName.value .IMAGE_BACKGROUND_SUBTRACTION then some .IMAGE_BACKGROUND_SUBTRACTION
  else if s = PName.value .IMAGE_CELL_SEGMENTATION then some .IMAGE_CELL_SEGMENTATION
  else if s = PName.value .IMAGE_DESTRIPING then some .IMAGE_DESTRIPING
  else if s = PName.value .IMAGE_FLATFIELD_CORRECTION then some .IMAGE_FLATFIELD_CORRECTION
  else if s = PName.value .IMAGE_THRESHOLDING then some .IMAGE_THRESHOLDING
  else if s = PName.value .IMAGE_TILE_ALIGNMENT then some .IMAGE_TILE_ALIGNMENT
  else if s = PName.value .IMAGE_TILE_FUSING then some .IMAGE_TILE_FUSING
  else if s = PName.value .IMAGE_TILE_PROJECTION then some .IMAGE_TILE_PROJECTION
  else if s = PName.value .FILE_CONVERSION then some .FILE_CONVERSION
  else none

/-- Description of downstream processing steps (`ProcessingSteps` model),
post-validation: every `process_name` entry is one of the ten admitted
members. -/
structure ProcessingSteps where
  channel_name : String
  process_name : List PName
deriving DecidableEq, Repr

/-- External tile descriptor (`AcquisitionTile`), opaque validated value. -/
structure AcquisitionTile where
  value : String
deriving DecidableEq, Repr

/-- External calibration record, opaque validated value. -/
structure Calibration where
  value : String
deriving DecidableEq, Repr

/-- External maintenance record, opaque validated value. -/
structure Maintenance where
  value : String
deriving DecidableEq, Repr

/-- Timestamp (`datetime`), opaque to the claims. -/
structure DateTime where
  stamp : Int
deriving DecidableEq, Repr

/-- Base URL constant from `AindCoreModel._DESCRIBED_BY_BASE_URL`; its exact
text lives outside this repository and is immaterial to every claim. -/
def DESCRIBED_BY_BASE_URL : String :=
  "https://raw.githubusercontent.com/AllenNeuralDynamics/aind-data-schema/main/src/"

/-- `Acquisition._DESCRIBED_BY_URL`: base constant plus the fixed relative
identifier (line 83 of the source). -/
def DESCRIBED_BY_URL : String :=
  DESCRIBED_BY_BASE_URL ++ "aind_data_schema/core/acquisition.py"

/-- A fully validated, immutable `Acquisition` record, fields in declaration
order of the source. -/
structure Acquisition where
  describedBy : String
  schema_version : String
  protocol_id : List String
  experimenter_full_name : List String
  specimen_id : String
  subject_id : Option String
  instrument_id : String
  calibrations : List Calibration
  maintenance : List Maintenance
  session_start_time : DateTime
  session_end_time : DateTime
  session_type : Option String
  tiles : List AcquisitionTile
  axes : List Axis
  chamber_immersion : Immersion
  sample_immersion : Option Immersion
  active_objectives : Option (List String)
  local_storage_directory : Option String
  external_storage_directory : Option String
  processing_steps : List ProcessingSteps
  notes : Option String
deriving DecidableEq, Repr

/-! ## Raw input and errors -/

/-- The raw value supplied for the `axes` field.  `str` is a value whose
Python type is exactly `str`; `strSubclass` is an instance of a strict
subclass of `str` (still a string, but `type(v) is str` is `False` for it);
`axisList` is an already-structured sequence of `Axis` values. -/
inductive AxesValue where
  | str (s : String)
  | strSubclass (s : String)
  | axisList (axes : List Axis)
deriving DecidableEq, Repr

/-- One (field path, reason) pair inside a `ValidationError`. -/
structure FieldError where
  path : String
  reason : String
deriving DecidableEq, Repr

/-- How construction can fail.  `validationError` is the aggregated pydantic
error carrying one pair per violation; `keyError` is the raw Python
`KeyError` escaping `direction_lookup[c]` (it carries the missing key, i.e.
the offending character, and nothing else); `indexError` is the raw
`IndexError` escaping `name_lookup[i]` (list index out of range). -/
inductive PyError where
  | validationError (errors : List FieldError)
  | keyError (c : Char)
  | indexError (i : Nat)
deriving DecidableEq, Repr

/-- Whether a failure is of the aggregated `ValidationError` kind (as
opposed to a raw `KeyError` or `IndexError` escaping a validator). -/
def PyError.isValidationError : PyError → Bool
  | .validationError _ => true
  | .keyError _ => false
  | .indexError _ => false

/-- The single-character-to-`Direction` table (`direction_lookup` in
`from_direction_code`); `none` models a key miss, which in Python raises
`KeyError`. -/
def directionLookup : Char → Option Direction
  | 'L' => some .LR
  | 'R' => some .RL
  | 'A' => some .AP
  | 'P' => some .PA
  | 'I' => some .IS
  | 'S' => some .SI
  | _ => none

/-- The fixed ordered name list (`name_lookup = [AxisName.X, AxisName.Y,
AxisName.Z]`). -/
def nameLookup : List AxisName := [AxisName.X, AxisName.Y, AxisName.Z]

/-- The expansion loop of `from_direction_code`: `for i, c in enumerate(v)`
building `Axis(name=name_lookup[i], direction=direction_lookup[c],
dimension=i)`.  Python evaluates the keyword arguments left to right, so
`name_lookup[i]` (a possible `IndexError`) is evaluated before
`direction_lookup[c]` (a possible `KeyError`). -/
def expandCode : List Char → Nat → Except PyError (List Axis)
  | [], _ => .ok []
  | c :: rest, i =>
    match nameLookup[i]? with
    | none => .error (.indexError i)
    | some nm =>
      match directionLookup c with
      | none => .error (.keyError c)
      | some dir =>
        (expandCode rest (i + 1)).map
          (fun axes => { name := nm, dimension := (i : Int), direction := dir,
                         unit := SizeUnit.UM } :: axes)

/-- The `mode="before"` validator on `axes`: when the type of the supplied value
is exactly `str`, expand the direction code; otherwise return the value
unchanged. -/
def from_direction_code : AxesValue → Except PyError AxesValue
  | .str s => (expandCode s.data 0).map .axisList
  | v => .ok v

/-! ## Construction (pydantic validation) -/

/-- Raw input for one `ProcessingSteps` entry: `process_name` entries arrive
as strings and must each pass the closed-set check. -/
structure RawProcessingSteps where
  channel_name : String
  process_name : List String
deriving DecidableEq, Repr

/-- A raw input map for `Acquisition` construction.  `none` means the key is
absent from the map.  Fields whose declared type is `Optional[...]` conflate
an absent key with an explicit `None` (both validate to `None`).  External
validated types (`AcquisitionTile`, `Calibration`, ...) are carried as
already-validated instances, as are `datetime` and `Decimal` values. -/
structure RawAcquisition where
  describedBy : Option String := none
  schema_version : Option String := none
  protocol_id : Option (List String) := none
  experimenter_full_name : Option (List String) := none
  specimen_id : Option String := none
  subject_id : Option String := none
  instrument_id : Option String := none
  calibrations : Option (List Calibration) := none
  maintenance : Option (List Maintenance) := none
  session_start_time : Option DateTime := none
  session_end_time : Option DateTime := none
  session_type : Option String := none
  tiles : Option (List AcquisitionTile) := none
  axes : Option AxesValue := none
  chamber_immersion : Option Immersion := none
  sample_immersion : Option Immersion := none
  active_objectives : Option (List String) := none
  local_storage_directory : Option String := none
  external_storage_directory : Option String := none
  processing_steps : Option (List RawProcessingSteps) := none
  notes : Option String := none
deriving DecidableEq, Repr

/-- Run the `mode="before"` validator: it only runs when the `axes` key is
present; an exception it raises propagates out of the whole construction. -/
def normalizeAxes : Option AxesValue → Except PyError (Option AxesValue)
  | none => .ok none
  | some v => (from_direction_code v).map some

/-- Violations of a required field with no default (`Field(...)`). -/
def requiredErrs {α : Type} (name : String) : Option α → List FieldError
  | some _ => []
  | none => [{ path := name, reason := "Field required" }]

/-- Violations of the `schema_version: Literal["0.6.5"]` field (default
`"0.6.5"` when absent; exact literal match when supplied). -/
def svErrs : Option String → List FieldError
  | none => []
  | some s =>
    if s = "0.6.5" then []
    else [{ path := "schema_version",
            reason := "Input should be the literal 0.6.5, got " ++ s }]

/-- Violations of the (already normalized) `axes` field against its declared
type `List[Axis]`: required, and a value the validator passed through as a
string is not a valid list. -/
def axesErrs : Option AxesValue → List FieldError
  | none => [{ path := "axes", reason := "Field required" }]
  | some (.axisList _) => []
  | some (.str _) => [{ path := "axes", reason := "Input should be a valid list" }]
  | some (.strSubclass _) => [{ path := "axes", reason := "Input should be a valid list" }]

/-- Violations of one `process_name` entry: exact membership in the closed
set of ten identifiers, never coerced. -/
def pnameErrs (path : String) (s : String) : List FieldError :=
  match processName? s with
  | some _ => []
  | none => [{ path := path, reason := "Input should be one of the permitted process names, got " ++ s }]

/-- Violations of the entries of one raw `ProcessingSteps`, each entry of
`process_name` checked independently; `j` numbers the entries. -/
def pnameListErrs (base : String) : List String → Nat → List FieldError
  | [], _ => []
  | s :: rest, j =>
      pnameErrs (base ++ "." ++ toString j) s ++ pnameListErrs base rest (j + 1)

/-- Violations of the `processing_steps` list, entry `i`. -/
def psListErrs : List RawProcessingSteps → Nat → List FieldError
  | [], _ => []
  | ps :: rest, i =>
      pnameListErrs ("processing_steps." ++ toString i ++ ".process_name")
        ps.process_name 0 ++ psListErrs rest (i + 1)

/-- All schema-layer violations of a raw input, in field declaration order,
computed over the already-normalized `axes` value `nv`. -/
def schemaErrors (raw : RawAcquisition) (nv : Option AxesValue) : List FieldError :=
  svErrs raw.schema_version
    ++ requiredErrs "experimenter_full_name" raw.experimenter_full_name
    ++ requiredErrs "specimen_id" raw.specimen_id
    ++ requiredErrs "instrument_id" raw.instrument_id
    ++ requiredErrs "session_start_time" raw.session_start_time
    ++ requiredErrs "session_end_time" raw.session_end_time
    ++ requiredErrs "tiles" raw.tiles
    ++ axesErrs nv
    ++ requiredErrs "chamber_immersion" raw.chamber_immersion
    ++ psListErrs (raw.processing_steps.getD []) 0

/-- The validated axis list of a normalized `axes` value that produced no
violation. -/
def extractAxes : Option AxesValue → List Axis
  | some (.axisList l) => l
  | _ => []

/-- Parse one validated `ProcessingSteps` (only reached when
`schemaErrors` is empty, so every entry is in the closed set). -/
def parsePS (ps : RawProcessingSteps) : ProcessingSteps :=
  { channel_name := ps.channel_name,
    process_name := ps.process_name.map
      (fun s => (processName? s).getD PName.IMAGE_IMPORTING) }

/-- Assemble the validated record; only reached when `schemaErrors` is
empty, so every `getD` default is dead. -/
def buildAcq (raw : RawAcquisition) (nv : Option AxesValue) : Acquisition :=
  { describedBy := raw.describedBy.getD DESCRIBED_BY_URL
    schema_version := raw.schema_version.getD "0.6.5"
    protocol_id := raw.protocol_id.getD []
    experimenter_full_name := raw.experimenter_full_name.getD []
    specimen_id := raw.specimen_id.getD ""
    subject_id := raw.subject_id
    instrument_id := raw.instrument_id.getD ""
    calibrations := raw.calibrations.getD []
    maintenance := raw.maintenance.getD []
    session_start_time := raw.session_start_time.getD { stamp := 0 }
    session_end_time := raw.session_end_time.getD { stamp := 0 }
    session_type := raw.session_type
    tiles := raw.tiles.getD []
    axes := extractAxes nv
    chamber_immersion := raw.chamber_immersion.getD
      { medium := { value := "" }, refractive_index := { unscaled := 0, scale := 0 } }
    sample_immersion := raw.sample_immersion
    active_objectives := raw.active_objectives
    local_storage_directory := raw.local_storage_directory
    external_storage_directory := raw.external_storage_directory
    processing_steps := (raw.processing_steps.getD []).map parsePS
    notes := raw.notes }

/-- Atomic construction of an `Acquisition` from a raw input map: run the
`axes` before-validator (whose raw `KeyError`/`IndexError` aborts the whole
construction), then validate every field, collect every violation into a
single `ValidationError`, and build the immutable record only when nothing
is violated. -/
def construct (raw : RawAcquisition) : Except PyError Acquisition :=
  match normalizeAxes raw.axes with
  | .error e => .error e
  | .ok nv =>
    match schemaErrors raw nv with
    | [] => .ok (buildAcq raw nv)
    | e :: rest => .error (.validationError (e :: rest))

/-! ## Serialization -/

/-- Modelled from the spec: serialization of one `ProcessingSteps` to its
document form (the pydantic serializer is not part of the source under
src/); enumeration entries are serialized as their string values. -/
def serializePS (ps : ProcessingSteps) : RawProcessingSteps :=
  { channel_name := ps.channel_name,
    process_name := ps.process_name.map PName.value }

/-- Modelled from the spec: serialization of a validated record to its
structured key/value document form (the pydantic serializer is not part of
the source under src/) — every field appears under its own name, nested
entities as nested documents, enumerations as string values; re-parsing
goes back through `construct`. -/
def serialize (a : Acquisition) : RawAcquisition :=
  { describedBy := some a.describedBy
    schema_version := some a.schema_version
    protocol_id := some a.protocol_id
    experimenter_full_name := some a.experimenter_full_name
    specimen_id := some a.specimen_id
    subject_id := a.subject_id
    instrument_id := some a.instrument_id
    calibrations := some a.calibrations
    maintenance := some a.maintenance
    session_start_time := some a.session_start_time
    session_end_time := some a.session_end_time
    session_type := a.session_type
    tiles := some a.tiles
    axes := some (.axisList a.axes)
    chamber_immersion := some a.chamber_immersion
    sample_immersion := a.sample_immersion
    active_objectives := a.active_objectives
    local_storage_directory := a.local_storage_directory
    external_storage_directory := a.external_storage_directory
    processing_steps := some (a.processing_steps.map serializePS)
    notes := a.notes }

/-! ## General lemmas about the embedding -/

def dirChars : List Char := ['L', 'R', 'A', 'P', 'I', 'S']

lemma directionLookup_isSome_iff (c : Char) :
    (directionLookup c).isSome = true ↔ c ∈ dirChars := by
  unfold directionLookup dirChars
  split <;> simp_all

lemma construct_ok_iff {raw : RawAcquisition} {a : Acquisition} :
    construct raw = .ok a ↔
      ∃ nv, normalizeAxes raw.axes = .ok nv ∧ schemaErrors raw nv = [] ∧ buildAcq raw nv = a := by
  unfold construct
  cases h : normalizeAxes raw.axes with
  | error e => simp
  | ok nv =>
    cases h2 : schemaErrors raw nv with
    | nil => simp [h2]
    | cons e rest => simp [h2]


lemma expandCode_ok_of_valid :
    ∀ (chars : List Char) (i : Nat), i + chars.length ≤ 3 →
      (∀ c ∈ chars, (directionLookup c).isSome = true) →
      ∃ l : List Axis,
        expandCode chars i = .ok l ∧ l.length = chars.length ∧
        ∀ k, (hk : k < l.length) → (hc : k < chars.length) →
          l.get ⟨k, hk⟩ = { name := nameLookup.getD (i + k) AxisName.X,
                            dimension := ((i + k : Nat) : Int),
                            direction := (directionLookup (chars.get ⟨k, hc⟩)).getD Direction.OTHER,
                            unit := SizeUnit.UM } := by
  intro chars
  induction chars with
  | nil =>
    intro i _ _
    exact ⟨[], rfl, rfl, fun k hk => absurd hk (by simp)⟩
  | cons c rest ih =>
    intro i hle hall
    have hi : i < 3 := by simp at hle; omega
    have hname : nameLookup[i]? = some (nameLookup.getD i AxisName.X) := by
      interval_cases i <;> rfl
    have hdir : directionLookup c = some ((directionLookup c).getD Direction.OTHER) := by
      have := hall c (by simp)
      cases hd : directionLookup c with
      | none => rw [hd] at this; simp at this
      | some d => rfl
    obtain ⟨l, hl, hlen, hget⟩ := ih (i + 1) (by simp at hle ⊢; omega)
      (fun x hx => hall x (by simp [hx]))
    refine ⟨{ name := nameLookup.getD i AxisName.X, dimension := ((i : Nat) : Int),
              direction := (directionLookup c).getD Direction.OTHER,
              unit := SizeUnit.UM } :: l, ?_, ?_, ?_⟩
    · rw [expandCode, hname, hdir, hl]
      rfl
    · simp [hlen]
    · intro k hk hc2
      match k with
      | 0 => simp
      | Nat.succ k2 =>
        have hk2 : k2 < l.length := by simp at hk; omega
        have hc3 : k2 < rest.length := by simp at hc2; omega
        have := hget k2 hk2 hc3
        simp only [List.get]
        rw [this]
        have : i + 1 + k2 = i + (k2 + 1) := by omega
        simp [this]


lemma expandCode_ok_length :
    ∀ (chars : List Char) (i : Nat) (l : List Axis),
      expandCode chars i = .ok l → chars = [] ∨ i + chars.length ≤ 3 := by
  intro chars
  induction chars with
  | nil => intro i l h; exact Or.inl rfl
  | cons c rest ih =>
    intro i l h
    rw [expandCode] at h
    cases hname : nameLookup[i]? with
    | none => rw [hname] at h; exact absurd h (by simp)
    | some nm =>
      rw [hname] at h
      have hi : i < 3 := by
        by_contra hge
        have : nameLookup[i]? = none := by
          apply List.getElem?_eq_none
          simp [nameLookup]; omega
        rw [this] at hname; exact absurd hname (by simp)
      cases hdir : directionLookup c with
      | none => rw [hdir] at h; exact absurd h (by simp)
      | some d =>
        rw [hdir] at h
        cases hrec : expandCode rest (i + 1) with
        | error e => rw [hrec] at h; exact absurd h (by simp [Except.map])
        | ok l2 =>
          rcases ih (i + 1) l2 hrec with h1 | h2
          · subst h1; right; simp; omega
          · right; simp at h2 ⊢; omega

lemma expandCode_indexError_of_valid :
    ∀ (chars : List Char) (i : Nat),
      (∀ c ∈ chars, (directionLookup c).isSome = true) →
      3 < i + chars.length → i ≤ 3 →
      expandCode chars i = .error (.indexError 3) := by
  intro chars
  induction chars with
  | nil => intro i _ hlt hle; simp at hlt; omega
  | cons c rest ih =>
    intro i hall hlt hle
    by_cases hi : i = 3
    · subst hi
      rw [expandCode]
      have : nameLookup[(3 : Nat)]? = none := by rfl
      rw [this]
    · have hi3 : i < 3 := by omega
      rw [expandCode]
      have hname : nameLookup[i]? = some (nameLookup.getD i AxisName.X) := by
        interval_cases i <;> rfl
      rw [hname]
      have hdir : directionLookup c = some ((directionLookup c).getD Direction.OTHER) := by
        have := hall c (by simp)
        cases hd : directionLookup c with
        | none => rw [hd] at this; simp at this
        | some d => rfl
      rw [hdir]
      rw [ih (i + 1) (fun x hx => hall x (by simp [hx])) (by simp at hlt ⊢; omega) (by omega)]
      rfl

lemma expandCode_keyError :
    ∀ (chars : List Char) (i k : Nat) (hk : k < chars.length),
      i + k < 3 →
      (∀ j, (hj : j < chars.length) → j < k → (directionLookup (chars.get ⟨j, hj⟩)).isSome = true) →
      directionLookup (chars.get ⟨k, hk⟩) = none →
      expandCode chars i = .error (.keyError (chars.get ⟨k, hk⟩)) := by
  intro chars
  induction chars with
  | nil => intro i k hk; simp at hk
  | cons c rest ih =>
    intro i k hk hik hbefore hnone
    have hi3 : i < 3 := by omega
    have hname : nameLookup[i]? = some (nameLookup.getD i AxisName.X) := by
      interval_cases i <;> rfl
    match k with
    | 0 =>
      rw [expandCode, hname]
      simp only [List.get] at hnone
      rw [hnone]
      rfl
    | Nat.succ k2 =>
      have hdir : directionLookup c = some ((directionLookup c).getD Direction.OTHER) := by
        have := hbefore 0 (by simp) (by omega)
        simp only [List.get] at this
        cases hd : directionLookup c with
        | none => rw [hd] at this; simp at this
        | some d => rfl
      rw [expandCode, hname, hdir]
      have hk2 : k2 < rest.length := by simp at hk; omega
      rw [ih (i + 1) k2 hk2 (by omega)
        (fun j hj hjk => hbefore (j + 1) (by simp; omega) (by omega))
        hnone]
      rfl


lemma schemaErrors_eq_nil {raw : RawAcquisition} {nv : Option AxesValue}
    (h : schemaErrors raw nv = []) :
    svErrs raw.schema_version = [] ∧
    requiredErrs "experimenter_full_name" raw.experimenter_full_name = [] ∧
    requiredErrs "specimen_id" raw.specimen_id = [] ∧
    requiredErrs "instrument_id" raw.instrument_id = [] ∧
    requiredErrs "session_start_time" raw.session_start_time = [] ∧
    requiredErrs "session_end_time" raw.session_end_time = [] ∧
    requiredErrs "tiles" raw.tiles = [] ∧
    axesErrs nv = [] ∧
    requiredErrs "chamber_immersion" raw.chamber_immersion = [] ∧
    psListErrs (raw.processing_steps.getD []) 0 = [] := by
  unfold schemaErrors at h
  simp only [List.append_eq_nil] at h
  tauto

lemma svErrs_nil_getD {o : Option String} (h : svErrs o = []) : o.getD "0.6.5" = "0.6.5" := by
  cases o with
  | none => rfl
  | some s =>
    by_cases hs : s = "0.6.5"
    · simp [hs]
    · simp [svErrs, hs] at h

lemma requiredErrs_nil {α : Type} {name : String} {o : Option α}
    (h : requiredErrs name o = []) : ∃ x, o = some x := by
  cases o with
  | none => simp [requiredErrs] at h
  | some x => exact ⟨x, rfl⟩

lemma construct_ok_schema_version {raw : RawAcquisition} {a : Acquisition}
    (h : construct raw = .ok a) : a.schema_version = "0.6.5" := by
  obtain ⟨nv, hn, he, hb⟩ := construct_ok_iff.mp h
  have hsv := (schemaErrors_eq_nil he).1
  rw [← hb]
  show raw.schema_version.getD "0.6.5" = "0.6.5"
  exact svErrs_nil_getD hsv

lemma pnameErrs_eq_nil {path s : String} :
    pnameErrs path s = [] ↔ (processName? s).isSome = true := by
  unfold pnameErrs
  cases h : processName? s <;> simp

lemma pnameListErrs_eq_nil {base : String} :
    ∀ (names : List String) (j : Nat),
      pnameListErrs base names j = [] ↔ ∀ s ∈ names, (processName? s).isSome = true := by
  intro names
  induction names with
  | nil => intro j; simp [pnameListErrs]
  | cons s rest ih =>
    intro j
    rw [pnameListErrs]
    simp only [List.append_eq_nil, ih (j + 1), pnameErrs_eq_nil]
    constructor
    · rintro ⟨h1, h2⟩ x hx
      rcases List.mem_cons.mp hx with rfl | hx2
      · exact h1
      · exact h2 x hx2
    · intro h
      exact ⟨h s (by simp), fun x hx => h x (by simp [hx])⟩

lemma psListErrs_eq_nil :
    ∀ (l : List RawProcessingSteps) (i : Nat),
      psListErrs l i = [] ↔
        ∀ ps ∈ l, ∀ s ∈ ps.process_name, (processName? s).isSome = true := by
  intro l
  induction l with
  | nil => intro i; simp [psListErrs]
  | cons ps rest ih =>
    intro i
    rw [psListErrs]
    simp only [List.append_eq_nil, ih (i + 1), pnameListErrs_eq_nil]
    constructor
    · rintro ⟨h1, h2⟩ x hx
      rcases List.mem_cons.mp hx with rfl | hx2
      · exact h1
      · exact h2 x hx2
    · intro h
      exact ⟨h ps (by simp), fun x hx => h x (by simp [hx])⟩

lemma processName_value_roundtrip : ∀ p : PName, processName? (PName.value p) = some p := by
  intro p
  cases p <;> rfl

lemma parsePS_serializePS : ∀ ps : ProcessingSteps, parsePS (serializePS ps) = ps := by
  intro ps
  unfold parsePS serializePS
  simp only [List.map_map]
  congr 1
  rw [show ps.process_name = List.map id ps.process_name from (List.map_id _).symm]
  simp only [List.map_map]
  apply List.map_congr_left
  intro p _
  simp [Function.comp, processName_value_roundtrip]

lemma map_parse_serialize : ∀ l : List ProcessingSteps,
    (l.map serializePS).map parsePS = l := by
  intro l
  induction l with
  | nil => rfl
  | cons ps rest ih => simp [ih, parsePS_serializePS]


lemma psListErrs_serialized (l : List ProcessingSteps) :
    psListErrs (l.map serializePS) 0 = [] := by
  rw [psListErrs_eq_nil]
  intro ps hps s hs
  obtain ⟨p, _, rfl⟩ := List.mem_map.mp hps
  obtain ⟨q, _, rfl⟩ := List.mem_map.mp hs
  rw [processName_value_roundtrip q]
  rfl

lemma serialize_schemaErrors_nil {a : Acquisition} (h : a.schema_version = "0.6.5") :
    schemaErrors (serialize a) (some (.axisList a.axes)) = [] := by
  unfold schemaErrors serialize
  simp only [svErrs, requiredErrs, axesErrs, h, Option.getD_some]
  simp [psListErrs_serialized]

lemma buildAcq_serialize (a : Acquisition) :
    buildAcq (serialize a) (some (.axisList a.axes)) = a := by
  have h : (a.processing_steps.map serializePS).map parsePS = a.processing_steps :=
    map_parse_serialize _
  calc buildAcq (serialize a) (some (.axisList a.axes))
      = { a with processing_steps := (a.processing_steps.map serializePS).map parsePS } := rfl
    _ = a := by rw [h]

lemma construct_error_of_schemaErrors {raw : RawAcquisition} {nv : Option AxesValue}
    (hn : normalizeAxes raw.axes = .ok nv)
    (hne : schemaErrors raw nv ≠ []) :
    construct raw = .error (.validationError (schemaErrors raw nv)) := by
  have hc : construct raw = match schemaErrors raw nv with
      | [] => .ok (buildAcq raw nv)
      | e :: rest => .error (.validationError (e :: rest)) := by
    unfold construct
    rw [hn]
  cases h : schemaErrors raw nv with
  | nil => exact absurd h hne
  | cons e rest =>
    rw [hc, h]

/-! ## Concrete fixtures for witnesses and counterexamples -/

/-- A concrete tile descriptor. -/
def tileFixture : AcquisitionTile := { value := "tile-0" }

/-- A concrete immersion description. -/
def immersionFixture : Immersion :=
  { medium := { value := "oil" }, refractive_index := { unscaled := 15, scale := 1 } }

/-- A raw input whose every field other than `axes` is present and valid;
`axes` is the supplied value `v`. -/
def baseRaw (v : AxesValue) : RawAcquisition :=
  { experimenter_full_name := some ["Jane Doe"]
    specimen_id := some "specimen-1"
    instrument_id := some "instrument-1"
    session_start_time := some { stamp := 1 }
    session_end_time := some { stamp := 2 }
    tiles := some [tileFixture]
    axes := some v
    chamber_immersion := some immersionFixture }

/-- The record `construct (baseRaw v)` produces on success, up to its `axes`
field. -/
def acqBase : Acquisition :=
  { describedBy := DESCRIBED_BY_URL
    schema_version := "0.6.5"
    protocol_id := []
    experimenter_full_name := ["Jane Doe"]
    specimen_id := "specimen-1"
    subject_id := none
    instrument_id := "instrument-1"
    calibrations := []
    maintenance := []
    session_start_time := { stamp := 1 }
    session_end_time := { stamp := 2 }
    session_type := none
    tiles := [tileFixture]
    axes := []
    chamber_immersion := immersionFixture
    sample_immersion := none
    active_objectives := none
    local_storage_directory := none
    external_storage_directory := none
    processing_steps := []
    notes := none }

/-- The axis list `"RAS"` expands to. -/
def rasAxes : List Axis :=
  [{ name := AxisName.X, dimension := 0, direction := Direction.RL, unit := SizeUnit.UM },
   { name := AxisName.Y, dimension := 1, direction := Direction.AP, unit := SizeUnit.UM },
   { name := AxisName.Z, dimension := 2, direction := Direction.SI, unit := SizeUnit.UM }]

/-- A raw input identical to `baseRaw` except that `tiles` and `axes` are
both supplied as empty lists. -/
def emptyListsRaw : RawAcquisition :=
  { baseRaw (.axisList []) with tiles := some [] }

/-- The record `emptyListsRaw` constructs. -/
def emptyListsAcq : Acquisition :=
  { acqBase with tiles := [], axes := [] }

/-- A raw input valid in every field except `schema_version`. -/
def wrongVersionRaw : RawAcquisition :=
  { baseRaw (.axisList []) with schema_version := some "0.6.4" }

/-- A raw input whose axes shorthand holds an unrecognized character and
whose `instrument_id` is also missing. -/
def keyErrorPlusMissingRaw : RawAcquisition :=
  { baseRaw (.str "RQS") with instrument_id := none }

/-- A raw input with two schema-layer violations: a wrong `schema_version`
and a missing `instrument_id`. -/
def multiViolationRaw : RawAcquisition :=
  { baseRaw (.axisList []) with
      instrument_id := none
      schema_version := some "0.6.4" }

/-- A raw input whose `processing_steps` holds one in-set entry and the
out-of-set entry `"made_up_step"`. -/
def madeUpRaw : RawAcquisition :=
  { baseRaw (.axisList []) with
      processing_steps := some
        [{ channel_name := "ch1", process_name := ["import", "made_up_step"] }] }

/-! ## Claims -/

/-- Claim C1: for every shorthand string over the alphabet `{L,R,A,P,I,S}`
of length at most 3 supplied as the `axes` field, construction succeeds and
the expanded list's `k`-th entity has name equal to the `k`-th entry of
`[X, Y, Z]`, dimension `k`, direction given by the fixed table, and the
default unit micrometers. -/
theorem C1_shorthand_expansion (s : String) (hlen : s.length ≤ 3)
    (hchars : ∀ c ∈ s.data, c ∈ dirChars) :
    ∃ l : List Axis,
      from_direction_code (.str s) = .ok (.axisList l) ∧
      l.length = s.length ∧
      (∀ k, (hk : k < l.length) → (hs2 : k < s.data.length) →
        l.get ⟨k, hk⟩ = { name := nameLookup.getD k AxisName.X,
                          dimension := (k : Int),
                          direction := (directionLookup (s.data.get ⟨k, hs2⟩)).getD Direction.OTHER,
                          unit := SizeUnit.UM }) ∧
      construct (baseRaw (.str s)) = .ok { acqBase with axes := l } := by
  have hvalid : ∀ c ∈ s.data, (directionLookup c).isSome = true :=
    fun c hc => (directionLookup_isSome_iff c).mpr (hchars c hc)
  obtain ⟨l, hl, hlen2, hget⟩ :=
    expandCode_ok_of_valid s.data 0 (by simpa using (hlen : s.data.length ≤ 3)) hvalid
  refine ⟨l, ?_, hlen2, ?_, ?_⟩
  · simp [from_direction_code, hl, Except.map]
  · intro k hk hs2
    simpa using hget k hk hs2
  · rw [construct_ok_iff]
    refine ⟨some (.axisList l), ?_, ?_, ?_⟩
    · simp [normalizeAxes, baseRaw, from_direction_code, hl, Except.map]
    · rfl
    · rfl

/-- Witness for C1 at the concrete input `"RAS"` from the spec scenario. -/
theorem C1_witness :
    ("RAS".length ≤ 3) ∧ (∀ c ∈ "RAS".data, c ∈ dirChars) ∧
    from_direction_code (.str "RAS") = .ok (.axisList rasAxes) ∧
    construct (baseRaw (.str "RAS")) = .ok { acqBase with axes := rasAxes } := by
  obtain ⟨l, h1, h2, h3, h4⟩ :=
    C1_shorthand_expansion "RAS" (by decide) (by decide)
  have he : (Except.ok (AxesValue.axisList l) : Except PyError AxesValue)
      = .ok (.axisList rasAxes) := by
    rw [← h1]; rfl
  have hlr : l = rasAxes := by
    injection he with he2
    injection he2
  subst hlr
  exact ⟨by decide, by decide, h1, h4⟩


/-- Claim C2 counterexample: for the shorthand `"RQS"` (offending character
`Q` at position 1), construction fails with a raw `KeyError` carrying only
the character, which is not of the `ValidationError` kind, so the failure
neither shares the schema-layer error kind nor names the position. -/
theorem C2_counterexample :
    construct (baseRaw (.str "RQS")) = .error (.keyError ('Q')) ∧
    (PyError.keyError ('Q')).isValidationError = false := by
  exact ⟨rfl, rfl⟩

/-- Claim C2 (amended): when the first character of the shorthand outside
`{L,R,A,P,I,S}` sits at a position below 3, construction fails with a raw
Python `KeyError` that names the offending character but not its position;
the failure is not of the `ValidationError` kind used by schema-layer
failures. -/
theorem C2_unrecognized_char (s : String) (k : Nat) (hk : k < s.data.length)
    (hk3 : k < 3)
    (hbefore : ∀ j, (hj : j < s.data.length) → j < k →
      (directionLookup (s.data.get ⟨j, hj⟩)).isSome = true)
    (hbad : s.data.get ⟨k, hk⟩ ∉ dirChars) :
    from_direction_code (.str s) = .error (.keyError (s.data.get ⟨k, hk⟩)) ∧
    (∀ raw : RawAcquisition, raw.axes = some (.str s) →
      construct raw = .error (.keyError (s.data.get ⟨k, hk⟩))) ∧
    (PyError.keyError (s.data.get ⟨k, hk⟩)).isValidationError = false := by
  have hnone : directionLookup (s.data.get ⟨k, hk⟩) = none := by
    cases hd : directionLookup (s.data.get ⟨k, hk⟩) with
    | none => rfl
    | some d =>
      exact absurd ((directionLookup_isSome_iff _).mp (by rw [hd]; rfl)) hbad
  have hexp := expandCode_keyError s.data 0 k hk (by omega) hbefore hnone
  have hfd : from_direction_code (.str s) = .error (.keyError (s.data.get ⟨k, hk⟩)) := by
    simp [from_direction_code, hexp, Except.map]
  refine ⟨hfd, ?_, rfl⟩
  intro raw hax
  have hna : normalizeAxes raw.axes = .error (.keyError (s.data.get ⟨k, hk⟩)) := by
    rw [hax]
    simp [normalizeAxes, hfd, Except.map]
  unfold construct
  rw [hna]

/-- Witness for the amended C2 at the concrete shorthand `"RQS"`. -/
theorem C2_witness :
    from_direction_code (.str "RQS") = .error (.keyError ('Q')) ∧
    construct (baseRaw (.str "RQS")) = .error (.keyError ('Q')) ∧
    (PyError.keyError ('Q')).isValidationError = false := by
  have h := C2_unrecognized_char "RQS" 1 (by decide) (by decide)
    (by decide) (by decide)
  exact ⟨h.1, h.2.1 (baseRaw (.str "RQS")) rfl, h.2.2⟩


/-- Claim C6: a shorthand string of length at least 4 never constructs a
record (so no record with more than 3 expanded axes exists), and when every
character is in `{L,R,A,P,I,S}` the failure point is the out-of-range
`name_lookup` access at index 3, surfacing as a raw `IndexError`. -/
theorem C6_long_code (s : String) (h4 : 4 ≤ s.length) :
    (∀ (raw : RawAcquisition) (a : Acquisition), raw.axes = some (.str s) →
      construct raw ≠ .ok a) ∧
    ((∀ c ∈ s.data, c ∈ dirChars) →
      from_direction_code (.str s) = .error (.indexError 3) ∧
      ∀ raw : RawAcquisition, raw.axes = some (.str s) →
        construct raw = .error (.indexError 3)) := by
  have h4d : 4 ≤ s.data.length := h4
  constructor
  · intro raw a hax hok
    obtain ⟨nv, hn, he, hb⟩ := construct_ok_iff.mp hok
    rw [hax] at hn
    cases hec : expandCode s.data 0 with
    | error e =>
      rw [show normalizeAxes (some (.str s))
            = ((expandCode s.data 0).map AxesValue.axisList).map some from rfl,
          hec] at hn
      exact absurd hn (by simp [Except.map])
    | ok l =>
      rcases expandCode_ok_length s.data 0 l hec with hnil | hle
      · rw [hnil] at h4d
        simp at h4d
      · omega
  · intro hall
    have hvalid : ∀ c ∈ s.data, (directionLookup c).isSome = true :=
      fun c hc => (directionLookup_isSome_iff c).mpr (hall c hc)
    have hexp := expandCode_indexError_of_valid s.data 0 hvalid (by omega) (by omega)
    have hfd : from_direction_code (.str s) = .error (.indexError 3) := by
      simp [from_direction_code, hexp, Except.map]
    refine ⟨hfd, ?_⟩
    intro raw hax
    have hna : normalizeAxes raw.axes = .error (.indexError 3) := by
      rw [hax]
      simp [normalizeAxes, hfd, Except.map]
    unfold construct
    rw [hna]

/-- Witness for C6 at the concrete shorthand `"RASL"`. -/
theorem C6_witness :
    (4 ≤ "RASL".length) ∧
    from_direction_code (.str "RASL") = .error (.indexError 3) ∧
    construct (baseRaw (.str "RASL")) = .error (.indexError 3) ∧
    construct (baseRaw (.str "RASL")) ≠ .ok acqBase := by
  have h := C6_long_code "RASL" (by decide)
  have h2 := h.2 (by decide)
  exact ⟨by decide, h2.1, h2.2 (baseRaw (.str "RASL")) rfl,
    h.1 (baseRaw (.str "RASL")) acqBase rfl⟩


/-- Claim C3 counterexample: an input whose `tiles` and `axes` are both
empty lists constructs successfully, so empty lists do not fail
required-field validation. -/
theorem C3_counterexample :
    construct emptyListsRaw = .ok emptyListsAcq ∧
    emptyListsAcq.tiles = [] ∧ emptyListsAcq.axes = [] := by
  exact ⟨rfl, rfl, rfl⟩

/-- Claim C3 (amended): `tiles` and `axes` are required fields — an input
whose `tiles` key or `axes` key is absent fails validation with a
`Field required` violation naming that field — but an empty list satisfies
the declared `List[...]` type, so a successfully constructed record may
have empty `tiles` and empty `axes`. -/
theorem C3_required_fields (raw : RawAcquisition) :
    (∀ nv : Option AxesValue, normalizeAxes raw.axes = .ok nv → raw.tiles = none →
      construct raw = .error (.validationError (schemaErrors raw nv)) ∧
      { path := "tiles", reason := "Field required" } ∈ schemaErrors raw nv) ∧
    (raw.axes = none →
      construct raw = .error (.validationError (schemaErrors raw none)) ∧
      { path := "axes", reason := "Field required" } ∈ schemaErrors raw none) ∧
    (construct emptyListsRaw = .ok emptyListsAcq ∧
      emptyListsAcq.tiles = [] ∧ emptyListsAcq.axes = []) := by
  refine ⟨?_, ?_, rfl, rfl, rfl⟩
  · intro nv hn htiles
    have hpair : requiredErrs "tiles" raw.tiles
        = [{ path := "tiles", reason := "Field required" }] := by
      rw [htiles]; rfl
    have hmem : { path := "tiles", reason := "Field required" } ∈ schemaErrors raw nv := by
      unfold schemaErrors
      simp only [List.mem_append, hpair]
      tauto
    refine ⟨construct_error_of_schemaErrors hn ?_, hmem⟩
    intro hnil
    rw [hnil] at hmem
    exact absurd hmem (by simp)
  · intro hax
    have hn : normalizeAxes raw.axes = .ok none := by rw [hax]; rfl
    have hpair : axesErrs none = [{ path := "axes", reason := "Field required" }] := rfl
    have hmem : { path := "axes", reason := "Field required" } ∈ schemaErrors raw none := by
      unfold schemaErrors
      simp only [List.mem_append, hpair]
      tauto
    refine ⟨construct_error_of_schemaErrors hn ?_, hmem⟩
    intro hnil
    rw [hnil] at hmem
    exact absurd hmem (by simp)

/-- Witness for the amended C3: a concrete input missing `tiles` fails, a
concrete input missing `axes` fails, and the empty-list input succeeds. -/
theorem C3_witness :
    construct { baseRaw (.axisList []) with tiles := none }
      = .error (.validationError
          (schemaErrors { baseRaw (.axisList []) with tiles := none } (some (.axisList [])))) ∧
    construct { baseRaw (.axisList []) with axes := none }
      = .error (.validationError
          (schemaErrors { baseRaw (.axisList []) with axes := none } none)) ∧
    construct emptyListsRaw = .ok emptyListsAcq := by
  refine ⟨?_, ?_, ?_⟩
  · exact ((C3_required_fields { baseRaw (.axisList []) with tiles := none }).1
      (some (.axisList [])) rfl rfl).1
  · exact ((C3_required_fields { baseRaw (.axisList []) with axes := none }).2.1 rfl).1
  · exact ((C3_required_fields emptyListsRaw).2.2).1

/-- Claim C4: supplying any `schema_version` other than the literal
`"0.6.5"` makes construction fail no matter what the other fields hold, and
every successfully constructed record carries `schema_version = "0.6.5"`. -/
theorem C4_schema_version_literal :
    (∀ (raw : RawAcquisition) (s : String), raw.schema_version = some s →
      s ≠ "0.6.5" → ∀ a : Acquisition, construct raw ≠ .ok a) ∧
    (∀ (raw : RawAcquisition) (a : Acquisition), construct raw = .ok a →
      a.schema_version = "0.6.5") := by
  constructor
  · intro raw s hsv hne a hok
    obtain ⟨nv, hn, he, hb⟩ := construct_ok_iff.mp hok
    have h1 := (schemaErrors_eq_nil he).1
    rw [hsv] at h1
    simp [svErrs, hne] at h1
  · intro raw a hok
    exact construct_ok_schema_version hok

/-- Witness for C4: the concrete input with `schema_version = "0.6.4"` and
every other field valid is rejected, and a concrete successful construction
carries `schema_version = "0.6.5"`. -/
theorem C4_witness :
    wrongVersionRaw.schema_version = some "0.6.4" ∧
    construct wrongVersionRaw ≠ .ok acqBase ∧
    construct (baseRaw (.axisList [])) = .ok { acqBase with axes := ([] : List Axis) } ∧
    ({ acqBase with axes := ([] : List Axis) } : Acquisition).schema_version = "0.6.5" := by
  refine ⟨rfl, ?_, rfl, ?_⟩
  · exact C4_schema_version_literal.1 wrongVersionRaw "0.6.4" rfl (by decide) acqBase
  · exact C4_schema_version_literal.2 (baseRaw (.axisList [])) _ rfl


/-- Claim C5 counterexample: an input with two offending fields — a bad
axes shorthand character and a missing `instrument_id` — fails with a raw
`KeyError` that carries no (field path, reason) pair at all, so the failure
does not report every offending field. -/
theorem C5_counterexample :
    construct keyErrorPlusMissingRaw = .error (.keyError 'Q') ∧
    keyErrorPlusMissingRaw.instrument_id = none ∧
    (PyError.keyError 'Q').isValidationError = false := by
  exact ⟨rfl, rfl, rfl⟩

/-- Claim C5 (amended): when the `axes` before-validator raises no
exception, a failed construction reports a single `ValidationError`
carrying the collected (field path, reason) pairs of every offending field
— in particular one pair per missing required field and one for a wrong
`schema_version` literal; but when the before-validator raises, that raw
exception is the entire failure and no field pairs are reported. -/
theorem C5_collected_violations :
    (∀ (raw : RawAcquisition) (nv : Option AxesValue),
      normalizeAxes raw.axes = .ok nv → schemaErrors raw nv ≠ [] →
      construct raw = .error (.validationError (schemaErrors raw nv)) ∧
      (∀ s2, raw.schema_version = some s2 → s2 ≠ "0.6.5" →
        { path := "schema_version",
          reason := "Input should be the literal 0.6.5, got " ++ s2 }
          ∈ schemaErrors raw nv) ∧
      (raw.experimenter_full_name = none →
        { path := "experimenter_full_name", reason := "Field required" }
          ∈ schemaErrors raw nv) ∧
      (raw.specimen_id = none →
        { path := "specimen_id", reason := "Field required" } ∈ schemaErrors raw nv) ∧
      (raw.instrument_id = none →
        { path := "instrument_id", reason := "Field required" } ∈ schemaErrors raw nv) ∧
      (raw.session_start_time = none →
        { path := "session_start_time", reason := "Field required" } ∈ schemaErrors raw nv) ∧
      (raw.session_end_time = none →
        { path := "session_end_time", reason := "Field required" } ∈ schemaErrors raw nv) ∧
      (raw.tiles = none →
        { path := "tiles", reason := "Field required" } ∈ schemaErrors raw nv) ∧
      (raw.chamber_immersion = none →
        { path := "chamber_immersion", reason := "Field required" } ∈ schemaErrors raw nv)) ∧
    (∀ (raw : RawAcquisition) (e : PyError),
      normalizeAxes raw.axes = .error e → construct raw = .error e) := by
  constructor
  · intro raw nv hn hne
    refine ⟨construct_error_of_schemaErrors hn hne, ?_, ?_, ?_, ?_, ?_, ?_, ?_, ?_⟩
    · intro s2 hs2 hnev
      have hpair : svErrs raw.schema_version
          = [{ path := "schema_version",
               reason := "Input should be the literal 0.6.5, got " ++ s2 }] := by
        rw [hs2]
        simp [svErrs, hnev]
      unfold schemaErrors
      simp only [List.mem_append, hpair]
      tauto
    all_goals
      intro hnone
      unfold schemaErrors
      simp only [List.mem_append]
    · have hpair : requiredErrs "experimenter_full_name" raw.experimenter_full_name
          = [{ path := "experimenter_full_name", reason := "Field required" }] := by
        rw [hnone]; rfl
      simp only [hpair]
      tauto
    · have hpair : requiredErrs "specimen_id" raw.specimen_id
          = [{ path := "specimen_id", reason := "Field required" }] := by
        rw [hnone]; rfl
      simp only [hpair]
      tauto
    · have hpair : requiredErrs "instrument_id" raw.instrument_id
          = [{ path := "instrument_id", reason := "Field required" }] := by
        rw [hnone]; rfl
      simp only [hpair]
      tauto
    · have hpair : requiredErrs "session_start_time" raw.session_start_time
          = [{ path := "session_start_time", reason := "Field required" }] := by
        rw [hnone]; rfl
      simp only [hpair]
      tauto
    · have hpair : requiredErrs "session_end_time" raw.session_end_time
          = [{ path := "session_end_time", reason := "Field required" }] := by
        rw [hnone]; rfl
      simp only [hpair]
      tauto
    · have hpair : requiredErrs "tiles" raw.tiles
          = [{ path := "tiles", reason := "Field required" }] := by
        rw [hnone]; rfl
      simp only [hpair]
      tauto
    · have hpair : requiredErrs "chamber_immersion" raw.chamber_immersion
          = [{ path := "chamber_immersion", reason := "Field required" }] := by
        rw [hnone]; rfl
      simp only [hpair]
      tauto
  · intro raw e hn
    unfold construct
    rw [hn]

/-- Witness for the amended C5: two simultaneous schema-layer violations
are both reported in the single `ValidationError`. -/
theorem C5_witness :
    construct multiViolationRaw
      = .error (.validationError (schemaErrors multiViolationRaw (some (.axisList [])))) ∧
    { path := "schema_version",
      reason := "Input should be the literal 0.6.5, got " ++ "0.6.4" }
      ∈ schemaErrors multiViolationRaw (some (.axisList [])) ∧
    { path := "instrument_id", reason := "Field required" }
      ∈ schemaErrors multiViolationRaw (some (.axisList [])) := by
  have h := C5_collected_violations.1 multiViolationRaw (some (.axisList []))
    rfl (by decide)
  exact ⟨h.1, h.2.1 "0.6.4" rfl (by decide), h.2.2.2.2.1 rfl⟩


/-- Claim C7: every `process_name` entry is independently checked for exact
membership in the fixed closed set of ten processing-step identifiers; the
entry list validates exactly when every entry is in the set, and any
out-of-set entry makes construction fail — nothing outside the set is
accepted or coerced. -/
theorem C7_process_name_closed_set :
    (∀ s : String, (processName? s).isSome = true ↔ ∃ p : PName, s = PName.value p) ∧
    (∀ (l : List RawProcessingSteps) (i : Nat),
      psListErrs l i = [] ↔
        ∀ ps ∈ l, ∀ n ∈ ps.process_name, (processName? n).isSome = true) ∧
    (∀ (raw : RawAcquisition) (l : List RawProcessingSteps),
      raw.processing_steps = some l →
      (∃ ps ∈ l, ∃ n ∈ ps.process_name, processName? n = none) →
      ∀ a : Acquisition, construct raw ≠ .ok a) := by
  refine ⟨?_, psListErrs_eq_nil, ?_⟩
  · intro s
    constructor
    · intro h
      unfold processName? at h
      split_ifs at h with h1 h2 h3 h4 h5 h6 h7 h8 h9 h10
      · exact ⟨.IMAGE_IMPORTING, h1⟩
      · exact ⟨.IMAGE_BACKGROUND_SUBTRACTION, h2⟩
      · exact ⟨.IMAGE_CELL_SEGMENTATION, h3⟩
      · exact ⟨.IMAGE_DESTRIPING, h4⟩
      · exact ⟨.IMAGE_FLATFIELD_CORRECTION, h5⟩
      · exact ⟨.IMAGE_THRESHOLDING, h6⟩
      · exact ⟨.IMAGE_TILE_ALIGNMENT, h7⟩
      · exact ⟨.IMAGE_TILE_FUSING, h8⟩
      · exact ⟨.IMAGE_TILE_PROJECTION, h9⟩
      · exact ⟨.FILE_CONVERSION, h10⟩
      · simp at h
    · rintro ⟨p, rfl⟩
      rw [processName_value_roundtrip p]
      rfl
  · intro raw l hps hbad a hok
    obtain ⟨nv, hn, he, hb⟩ := construct_ok_iff.mp hok
    have h10 := (schemaErrors_eq_nil he).2.2.2.2.2.2.2.2.2
    rw [hps] at h10
    rw [show (Option.getD (some l) [] : List RawProcessingSteps) = l from rfl] at h10
    rw [psListErrs_eq_nil] at h10
    obtain ⟨ps, hpsmem, n, hnmem, hnone⟩ := hbad
    have := h10 ps hpsmem n hnmem
    rw [hnone] at this
    simp at this

/-- Witness for C7: `"import"` is in the closed set, `"made_up_step"` is
not, and the concrete input carrying it fails construction. -/
theorem C7_witness :
    (processName? "import").isSome = true ∧
    processName? "made_up_step" = none ∧
    construct madeUpRaw ≠ .ok acqBase := by
  refine ⟨?_, by decide, ?_⟩
  · exact (C7_process_name_closed_set.1 "import").mpr ⟨.IMAGE_IMPORTING, rfl⟩
  · exact C7_process_name_closed_set.2.2 madeUpRaw _ rfl
      ⟨{ channel_name := "ch1", process_name := ["import", "made_up_step"] },
        by simp, "made_up_step", by simp, by decide⟩ acqBase

/-- Claim C8: a sequence supplied for `axes` is passed through the
normalizer unchanged — the value handed to the schema layer is exactly the
supplied list, and a successful construction stores exactly that list. -/
theorem C8_sequence_passthrough (l : List Axis) :
    from_direction_code (.axisList l) = .ok (.axisList l) ∧
    normalizeAxes (some (.axisList l)) = .ok (some (.axisList l)) ∧
    ∀ (raw : RawAcquisition) (a : Acquisition), raw.axes = some (.axisList l) →
      construct raw = .ok a → a.axes = l := by
  refine ⟨rfl, rfl, ?_⟩
  intro raw a hax hok
  obtain ⟨nv, hn, he, hb⟩ := construct_ok_iff.mp hok
  rw [hax] at hn
  have hn2 : (Except.ok (some (AxesValue.axisList l)) : Except PyError (Option AxesValue))
      = .ok nv := hn
  have hnv : nv = some (.axisList l) := by
    injection hn2 with h3
    exact h3.symm
  subst hnv
  rw [← hb]
  rfl

/-- Witness for C8 at the concrete axis list expanded from `"RAS"`. -/
theorem C8_witness :
    from_direction_code (.axisList rasAxes) = .ok (.axisList rasAxes) ∧
    ({ acqBase with axes := rasAxes } : Acquisition).axes = rasAxes := by
  have h := C8_sequence_passthrough rasAxes
  exact ⟨h.1, h.2.2 (baseRaw (.axisList rasAxes)) { acqBase with axes := rasAxes } rfl rfl⟩

/-- Claim C9: serializing a validly constructed record to its key/value
document form and re-parsing it through construction yields the same
record, field for field. -/
theorem C9_roundtrip (raw : RawAcquisition) (a : Acquisition)
    (h : construct raw = .ok a) :
    construct (serialize a) = .ok a := by
  have hsv := construct_ok_schema_version h
  rw [construct_ok_iff]
  exact ⟨some (.axisList a.axes), rfl, serialize_schemaErrors_nil hsv,
    buildAcq_serialize a⟩

/-- Witness for C9 on a concrete constructed record. -/
theorem C9_witness :
    construct (baseRaw (.axisList rasAxes)) = .ok { acqBase with axes := rasAxes } ∧
    construct (serialize { acqBase with axes := rasAxes })
      = .ok { acqBase with axes := rasAxes } := by
  exact ⟨rfl, C9_roundtrip (baseRaw (.axisList rasAxes)) _ rfl⟩

/-- Claim C10: the shorthand-expansion branch is taken only when the type
of the supplied value is exactly `str`: an instance of a strict subclass of
`str` is returned unchanged — never expanded, even when its text is a valid
direction code — and reaches the schema layer as a raw string, where it
fails the `List[Axis]` type check. -/
theorem C10_strict_subclass_passthrough (s : String) :
    from_direction_code (.strSubclass s) = .ok (.strSubclass s) ∧
    normalizeAxes (some (.strSubclass s)) = .ok (some (.strSubclass s)) ∧
    axesErrs (some (.strSubclass s))
      = [{ path := "axes", reason := "Input should be a valid list" }] := by
  exact ⟨rfl, rfl, rfl⟩

end Aind
